import Mathlib

/-!
Verification of the BidFlow RFP staged-pipeline core against its
natural-language specification.  The Python source (src/app.py) is embedded
shallowly: pure helper functions become Lean functions, the filesystem and
the remote language-model service become explicit inputs, and the
orchestration that the source delegates to an external agent framework is
modelled from the specification where noted.
-/

namespace BidFlow

/-! ## Document ingestion (src/app.py, extract_text_from_pdf)

A parsed paginated document is embedded as the list of per-page extraction
results: `none` models a page whose extraction yields no content at all,
`some c` a page whose extraction yields the string `c` (possibly empty).
The Python loop `if content: text += content` skips pages whose content is
falsy, i.e. absent or the empty string. -/

def addPage (text : String) (content : Option String) : String :=
  match content with
  | some c => if c = "" then text else text ++ c
  | none => text

def extract_text_from_pdf (pages : List (Option String)) : String :=
  pages.foldl addPage ""

/-- The pages that actually contribute text: extraction results that are
present and non-empty, in document order. -/
def pageText (p : Option String) : Option String :=
  match p with
  | some c => if c = "" then none else some c
  | none => none

def textBearing (pages : List (Option String)) : List String :=
  pages.filterMap pageText

/-- Concatenation of a list of strings, in order, with no separator. -/
def concatAll : List String → String
  | [] => ""
  | s :: rest => s ++ concatAll rest

theorem addPage_eq (acc : String) (p : Option String) :
    addPage acc p = acc ++ addPage "" p := by
  cases p with
  | none => simp [addPage]
  | some c =>
    by_cases h : c = "" <;> simp [addPage, h]

theorem foldl_addPage_eq (l : List (Option String)) (acc : String) :
    l.foldl addPage acc = acc ++ l.foldl addPage "" := by
  induction l generalizing acc with
  | nil => simp
  | cons p rest ih =>
    simp only [List.foldl_cons]
    rw [ih (addPage acc p), ih (addPage "" p), addPage_eq acc p,
      String.append_assoc]

theorem extract_append (l₁ l₂ : List (Option String)) :
    extract_text_from_pdf (l₁ ++ l₂)
      = extract_text_from_pdf l₁ ++ extract_text_from_pdf l₂ := by
  induction l₁ with
  | nil => simp [extract_text_from_pdf]
  | cons p rest ih =>
    simp only [extract_text_from_pdf, List.cons_append, List.foldl_cons]
    rw [foldl_addPage_eq (rest ++ l₂) (addPage "" p),
      foldl_addPage_eq rest (addPage "" p), String.append_assoc]
    exact congrArg _ ih

theorem extract_eq_concat (pages : List (Option String)) :
    extract_text_from_pdf pages = concatAll (textBearing pages) := by
  induction pages with
  | nil => rfl
  | cons p rest ih =>
    have h1 : extract_text_from_pdf (p :: rest)
        = extract_text_from_pdf [p] ++ extract_text_from_pdf rest :=
      extract_append [p] rest
    rw [h1, ih]
    cases p with
    | none => simp [extract_text_from_pdf, addPage, textBearing, pageText,
        concatAll]
    | some c =>
      by_cases h : c = "" <;>
        simp [extract_text_from_pdf, addPage, textBearing, pageText,
          concatAll, h]

theorem concatAll_length (l : List String) :
    (concatAll l).length = (l.map String.length).sum := by
  induction l with
  | nil => rfl
  | cons s rest ih => simp [concatAll, String.length_append, ih]

theorem length_pos_of_mem_concatAll {s : String} {l : List String}
    (hs : s ∈ l) (hne : s ≠ "") : 0 < (concatAll l).length := by
  rw [concatAll_length]
  have h0 : 0 < s.length := by
    cases hsd : s.data with
    | nil => exact absurd (String.ext hsd) hne
    | cons c cs => simp [String.length, hsd]
  calc 0 < s.length := h0
    _ ≤ (l.map String.length).sum := List.le_sum_of_mem (List.mem_map_of_mem _ hs)

/-! ## Business profile store (src/app.py, load_business_profile)

The filesystem interaction is embedded as an explicit input describing the
outcome of opening and reading `my_business_profile.txt`: the file is
readable with given contents, the file is absent, or some other I/O error
(permission denied, decode failure, ...) occurs.  The Python function
catches only `FileNotFoundError`; every other exception propagates, so the
embedding returns `Except.error` in that case. -/

inductive ReadOutcome where
  | ok (contents : String)
  | fileNotFound
  | ioError (msg : String)

def defaultProfile : String :=
  "Standard IT services and software engineering expertise."

def load_business_profile : ReadOutcome → Except String String
  | .ok contents => .ok contents
  | .fileNotFound => .ok defaultProfile
  | .ioError msg => .error msg

/-! ## Prompt construction (src/app.py, task descriptions)

The Python slice `s[:n]` keeps the first `n` characters of `s`. -/

def pySlice (s : String) (n : Nat) : String := ⟨s.data.take n⟩

/-- A stage of the pipeline.  `role`, `goal`, `backstory`, `description`
and `expected_output` are the agent/task fields of src/app.py; `deps` is
the list of upstream stage identifiers whose outputs the stage consumes,
taken from the specification (requiredUpstreamStageIds). -/
structure PipelineStage where
  id : String
  role : String
  goal : String
  backstory : String
  description : String
  expected_output : String
  deps : List String

/-- The display-time extraction task of src/app.py (lines 84-95): its
description interpolates the first 5000 characters of the tender text. -/
def extraction_task (tender_text : String) : PipelineStage :=
  { id := "extraction"
    role := "Requirement Analyst"
    goal := "Extract 5 mandatory requirements from the text."
    backstory := "Specialist in identifying project scope and deliverables."
    description := "Summarize the 5 most important technical requirements from this text: "
      ++ pySlice tender_text 5000
    expected_output := "A bulleted list of 5 requirements."
    deps := [] }

/-- The audit stage of the proposal pipeline (src/app.py, lines 106-128):
its description interpolates the first 6000 characters of the tender text
and the business profile in full. -/
def task_matching (tender_text profile : String) : PipelineStage :=
  { id := "audit"
    role := "Compliance Auditor"
    goal := "Ensure our response addresses every technical requirement found."
    backstory := "Expert in matching corporate capabilities to project needs."
    description := "Compare these tender requirements: " ++ pySlice tender_text 6000
      ++ " against our company profile: " ++ profile
      ++ ". Find the 3 strongest \x27selling points\x27 we have for this client."
    expected_output := "An internal analysis of why we are the right choice."
    deps := [] }

/-- The synthesis stage of the proposal pipeline (src/app.py, lines
115-134).  Its description is a fixed string; per the specification it
depends explicitly on the audit stage output. -/
def task_final_proposal : PipelineStage :=
  { id := "synthesis"
    role := "Senior Proposal Writer"
    goal := "Write a persuasive, high-value proposal based on our profile and the tender."
    backstory := "Master of technical sales and executive communication."
    description := "Using the audit results, write a formal 4-section proposal: Executive Summary, Proposed Solution, Past Experience, and Call to Action."
    expected_output := "A professional, markdown-formatted business proposal document."
    deps := ["audit"] }

/-- The two-stage proposal pipeline, in the order given to the sequential
crew in src/app.py (line 138). -/
def proposal_pipeline (tender_text profile : String) : List PipelineStage :=
  [task_matching tender_text profile, task_final_proposal]

/-! ## Orchestrator

The sequential orchestration itself is delegated by src/app.py to an
external agent framework, so it is modelled from the specification
(sections 4.3, 4.4 and 7). -/

/-- Remote-call failures of the language-model client (spec section 4.5). -/
inductive StageError where
  | authError
  | rateLimitError
  | timeoutError
  | providerError (msg : String)

/-- `DependencyError`: the pipeline is misconfigured (spec section 7). -/
inductive OrchestratorError where
  | dependencyError

/-- The pipeline context: stage outputs keyed by stage identifier, in
commit order. -/
def lookupCtx : List (String × String) → String → Option String
  | [], _ => none
  | (k, v) :: rest, d => if k = d then some v else lookupCtx rest d

/-- Modelled from the spec: prompt construction interpolates the declared
upstream dependencies outputs from the context together with the stage
description (section 4.3: the prompt is built from the stage template plus
the required upstream outputs). -/
def build_prompt (stage : PipelineStage) (ctx : List (String × String)) : String :=
  stage.description
    ++ concatAll (stage.deps.map (fun d => (lookupCtx ctx d).getD ""))

/-- Modelled from the spec: dependency validation at construction
(section 4.4): every dependency of every stage must name a stage earlier
in the sequence. -/
def depsOk : List String → List PipelineStage → Bool
  | _, [] => true
  | seen, s :: rest =>
    (s.deps.all fun d => decide (d ∈ seen)) && depsOk (seen ++ [s.id]) rest

/-- Modelled from the spec: constructing the orchestrator validates the
stage sequence and fails fast with `DependencyError`, before any remote
call can occur (the construction takes no client at all). -/
def mkCrew (stages : List PipelineStage) :
    Except OrchestratorError (List PipelineStage) :=
  if depsOk [] stages then .ok stages else .error .dependencyError

/-- The trace of one pipeline run: the remote calls made, in order, as
(stage identifier, prompt) pairs, and the outcome: the final context, or
the identifier of the failing stage with its error. -/
structure RunResult where
  calls : List (String × String)
  outcome : Except (String × StageError) (List (String × String))

/-- Modelled from the spec: sequential execution (section 4.4).  For each
stage in order: build its prompt from the current context, invoke the
client, commit the result under the stage identifier; abort on the first
failure. -/
def execute (client : String → String → Except StageError String) :
    List PipelineStage → List (String × String) → RunResult
  | [], ctx => ⟨[], .ok ctx⟩
  | s :: rest, ctx =>
    let pr := build_prompt s ctx
    match client s.id pr with
    | .ok out =>
      let r := execute client rest (ctx ++ [(s.id, out)])
      ⟨(s.id, pr) :: r.calls, r.outcome⟩
    | .error e => ⟨[(s.id, pr)], .error (s.id, e)⟩

/-! ## Claim theorems -/

/-- Claim C3: ingestion walks the pages in document order, skips every
page whose extracted content is empty or absent, and returns the
concatenation of the remaining pages in order; a document in which no page
yields text (including a zero-page document) yields exactly the empty
string, and a document with at least one text-bearing page yields
non-empty text. -/
theorem C3_ingest_spec (pages : List (Option String)) :
    extract_text_from_pdf pages = concatAll (textBearing pages)
    ∧ extract_text_from_pdf ([] : List (Option String)) = ""
    ∧ ((∀ c : String, some c ∈ pages → c = "") → extract_text_from_pdf pages = "")
    ∧ ((∃ c : String, some c ∈ pages ∧ c ≠ "") → extract_text_from_pdf pages ≠ "") := by
  refine ⟨extract_eq_concat pages, rfl, ?_, ?_⟩
  · intro hall
    rw [extract_eq_concat]
    have hnil : textBearing pages = [] := by
      apply List.filterMap_eq_nil_iff.mpr
      intro p hp
      cases p with
      | none => rfl
      | some c => simp [pageText, hall c hp]
    rw [hnil]
    rfl
  · rintro ⟨c, hc, hne⟩ hempty
    have hmem : c ∈ textBearing pages :=
      List.mem_filterMap.mpr ⟨some c, hc, by simp [pageText, hne]⟩
    have hpos := length_pos_of_mem_concatAll hmem hne
    rw [extract_eq_concat] at hempty
    rw [hempty] at hpos
    simp at hpos

/-- Witness for claim C3 at the concrete document of end-to-end scenario
A: one empty page followed by one page of text gives non-empty output. -/
theorem C3_ingest_spec_witness :
    extract_text_from_pdf [some "", some "Must support 99.9% uptime."] ≠ "" :=
  (C3_ingest_spec [some "", some "Must support 99.9% uptime."]).2.2.2
    ⟨"Must support 99.9% uptime.", by simp, by decide⟩

/-- Claim C4: loading the business profile returns the fixed default
string when the file is absent, and the exact file contents verbatim when
the file exists and is readable. -/
theorem C4_load_profile (c : String) :
    load_business_profile (ReadOutcome.ok c) = Except.ok c
    ∧ load_business_profile ReadOutcome.fileNotFound
        = Except.ok "Standard IT services and software engineering expertise." :=
  ⟨rfl, rfl⟩

/-- Counterexample to claim C5: on an I/O error other than file-not-found
(here a permission error) the profile load propagates the exception
instead of returning the fixed default, because the source catches only
FileNotFoundError. -/
theorem C5_counterexample :
    load_business_profile (ReadOutcome.ioError "PermissionError: Errno 13")
        = Except.error "PermissionError: Errno 13"
    ∧ load_business_profile (ReadOutcome.ioError "PermissionError: Errno 13")
        ≠ Except.ok defaultProfile :=
  ⟨rfl, fun h => Except.noConfusion h⟩

/-- Amended claim C5: the profile load returns the file contents when the
file is readable and the fixed default exactly on file-not-found; every
other I/O error propagates as an exception. -/
theorem C5_amended (c msg : String) :
    load_business_profile (ReadOutcome.ok c) = Except.ok c
    ∧ load_business_profile ReadOutcome.fileNotFound = Except.ok defaultProfile
    ∧ load_business_profile (ReadOutcome.ioError msg) = Except.error msg :=
  ⟨rfl, rfl, rfl⟩

/-- Claim C6: the source-text excerpt embedded in a stage description
never exceeds the configured truncation limit of that stage (5000
characters for the extraction stage, 6000 for the audit stage) and is
taken from the start of the text. -/
theorem C6_truncation (t p : String) :
    (pySlice t 5000).length ≤ 5000
    ∧ (pySlice t 5000).data <+: t.data
    ∧ (extraction_task t).description
        = "Summarize the 5 most important technical requirements from this text: "
          ++ pySlice t 5000
    ∧ (pySlice t 6000).length ≤ 6000
    ∧ (pySlice t 6000).data <+: t.data
    ∧ (task_matching t p).description
        = "Compare these tender requirements: " ++ pySlice t 6000
          ++ " against our company profile: " ++ p
          ++ ". Find the 3 strongest \x27selling points\x27 we have for this client." := by
  have hlen : ∀ n : Nat, (pySlice t n).length ≤ n := by
    intro n
    show (t.data.take n).length ≤ n
    rw [List.length_take]
    exact Nat.min_le_left _ _
  exact ⟨hlen 5000, List.take_prefix _ _, rfl, hlen 6000, List.take_prefix _ _, rfl⟩

/-- Claim C8: ingestion is deterministic: identical parsed documents give
identical output text (parsing of raw bytes is itself a pure function of
the bytes, embedded here as the per-page extraction results). -/
theorem C8_deterministic (d₁ d₂ : List (Option String)) (h : d₁ = d₂) :
    extract_text_from_pdf d₁ = extract_text_from_pdf d₂ := by rw [h]

/-- Witness for claim C8 at a concrete document. -/
theorem C8_deterministic_witness :
    extract_text_from_pdf [some "abc", none]
      = extract_text_from_pdf [some "abc", none] :=
  C8_deterministic [some "abc", none] [some "abc", none] rfl

/-- Claim C9: consecutive text-bearing pages are concatenated with no
separator: the text of two adjacent non-empty pages appears back-to-back
in the output. -/
theorem C9_no_separator (xs ys : List (Option String)) (a b : String)
    (ha : a ≠ "") (hb : b ≠ "") :
    extract_text_from_pdf (xs ++ some a :: some b :: ys)
      = extract_text_from_pdf xs ++ (a ++ (b ++ extract_text_from_pdf ys)) := by
  have hsplit : xs ++ some a :: some b :: ys
      = xs ++ ([some a] ++ ([some b] ++ ys)) := by simp
  rw [hsplit, extract_append, extract_append, extract_append]
  have hone : ∀ c : String, c ≠ "" → extract_text_from_pdf [some c] = c := by
    intro c hc
    show addPage "" (some c) = c
    rw [addPage_eq "" (some c)]
    simp [addPage, hc]
  rw [hone a ha, hone b hb]

/-- Witness for claim C9 at two concrete adjacent pages. -/
theorem C9_no_separator_witness :
    extract_text_from_pdf [some "ab", some "cd"]
      = extract_text_from_pdf [] ++ ("ab" ++ ("cd" ++ extract_text_from_pdf [])) :=
  C9_no_separator [] [] "ab" "cd" (by decide) (by decide)

/-- Claim C10: the audit stage description embeds the business profile in
full, as a literal substring, whatever its length; no truncation is
applied to the profile. -/
theorem C10_profile_in_full (t p : String) :
    p.data <:+: ((task_matching t p).description).data := by
  refine ⟨("Compare these tender requirements: " ++ pySlice t 6000
      ++ " against our company profile: ").data,
    (". Find the 3 strongest \x27selling points\x27 we have for this client.").data, ?_⟩
  simp [task_matching, String.data_append, List.append_assoc]

theorem depsOk_iff (stages : List PipelineStage) :
    ∀ seen : List String, depsOk seen stages = true
      ↔ ∀ pre s post, stages = pre ++ s :: post →
          ∀ d ∈ s.deps, d ∈ seen ∨ d ∈ pre.map PipelineStage.id := by
  induction stages with
  | nil =>
    intro seen
    simp only [depsOk, true_iff]
    intro pre s post hsplit
    exact absurd hsplit (by simp)
  | cons x rest ih =>
    intro seen
    simp only [depsOk, Bool.and_eq_true, List.all_eq_true, decide_eq_true_eq]
    rw [ih (seen ++ [x.id])]
    constructor
    · rintro ⟨hx, hrest⟩ pre s post hsplit d hd
      cases pre with
      | nil =>
        simp only [List.nil_append, List.cons.injEq] at hsplit
        exact Or.inl (hx d (hsplit.1 ▸ hd))
      | cons y pre' =>
        simp only [List.cons_append, List.cons.injEq] at hsplit
        rcases hrest pre' s post hsplit.2 d hd with h | h
        · rcases List.mem_append.mp h with h | h
          · exact Or.inl h
          · right
            simp only [List.mem_singleton] at h
            rw [List.map_cons]
            exact List.mem_cons.mpr (Or.inl (by rw [h, hsplit.1]))
        · right
          rw [List.map_cons]
          exact List.mem_cons.mpr (Or.inr h)
    · intro H
      refine ⟨?_, ?_⟩
      · intro d hd
        have := H [] x rest rfl d hd
        simpa using this
      · intro pre s post hsplit d hd
        rcases H (x :: pre) s post (by simp [hsplit]) d hd with h | h
        · exact Or.inl (List.mem_append.mpr (Or.inl h))
        · rcases List.mem_cons.mp h with h | h
          · exact Or.inl (List.mem_append.mpr (Or.inr (by simp [h])))
          · exact Or.inr h

/-- Claim C2: constructing the orchestrator fails with DependencyError
exactly when some stage declares an upstream dependency that no stage
preceding it in the sequence satisfies; when every dependency is
satisfied, construction succeeds.  The construction function takes no
language-model client at all, so no remote call can occur before the
validation. -/
theorem C2_dependency_validation (stages : List PipelineStage) :
    (mkCrew stages = Except.error OrchestratorError.dependencyError
      ↔ ∃ pre s post, stages = pre ++ s :: post
          ∧ ∃ d ∈ s.deps, d ∉ pre.map PipelineStage.id)
    ∧ ((¬ ∃ pre s post, stages = pre ++ s :: post
          ∧ ∃ d ∈ s.deps, d ∉ pre.map PipelineStage.id)
        → mkCrew stages = Except.ok stages) := by
  have hok : depsOk [] stages = true
      ↔ ∀ pre s post, stages = pre ++ s :: post →
          ∀ d ∈ s.deps, d ∈ pre.map PipelineStage.id := by
    rw [depsOk_iff stages []]
    constructor
    · intro H pre s post hsplit d hd
      rcases H pre s post hsplit d hd with h | h
      · simp at h
      · exact h
    · intro H pre s post hsplit d hd
      exact Or.inr (H pre s post hsplit d hd)
  have herr : mkCrew stages = Except.error OrchestratorError.dependencyError
      ↔ depsOk [] stages = false := by
    by_cases h : depsOk [] stages <;> simp [mkCrew, h]
  constructor
  · rw [herr, ← Bool.not_eq_true, hok]
    push_neg
    exact Iff.rfl
  · intro hno
    have hd : depsOk [] stages = true := by
      rw [hok]
      intro pre s post hsplit d hd
      by_contra hnd
      exact hno ⟨pre, s, post, hsplit, d, hd, hnd⟩
    simp [mkCrew, hd]

/-- Witness for claim C2: a pipeline consisting of the synthesis stage
alone declares a dependency on the audit stage that nothing satisfies, so
construction fails with DependencyError. -/
theorem C2_dependency_validation_witness :
    mkCrew [task_final_proposal]
      = Except.error OrchestratorError.dependencyError :=
  (C2_dependency_validation [task_final_proposal]).1.mpr
    ⟨[], task_final_proposal, [], rfl, "audit", by simp [task_final_proposal],
      by simp⟩

/-- Claim C1: in the proposal pipeline, whenever the client returns some
output text for the audit stage, the prompt assembled for the synthesis
stage contains that audit output as a literal substring. -/
theorem C1_audit_in_synthesis_prompt (t p a : String)
    (client : String → String → Except StageError String)
    (h : client "audit" (build_prompt (task_matching t p) []) = Except.ok a) :
    ∃ pr, ("synthesis", pr) ∈ (execute client (proposal_pipeline t p) []).calls
      ∧ a.data <:+: pr.data := by
  refine ⟨build_prompt task_final_proposal [("audit", a)], ?_, ?_⟩
  · have hid : (task_matching t p).id = "audit" := rfl
    simp only [proposal_pipeline, execute, hid, h, List.nil_append]
    cases hc : client task_final_proposal.id
        (build_prompt task_final_proposal [("audit", a)]) <;>
      simp [execute, hc] <;> rfl
  · show a.data <:+: (task_final_proposal.description
      ++ concatAll [(lookupCtx [("audit", a)] "audit").getD ""]).data
    have hctx : (lookupCtx [("audit", a)] "audit").getD "" = a := rfl
    rw [hctx]
    refine ⟨task_final_proposal.description.data, [], ?_⟩
    simp [concatAll, String.data_append]

/-- A deterministic stand-in client returning the fixed sentinel of
end-to-end scenario C for the audit stage. -/
def stubClient : String → String → Except StageError String :=
  fun sid _ =>
    if sid = "audit" then Except.ok "AUDIT: price, support, SLA"
    else Except.ok "final proposal text"

/-- Witness for claim C1: with the stub client, the sentinel appears in
the synthesis stage prompt. -/
theorem C1_audit_in_synthesis_prompt_witness :
    ∃ pr, ("synthesis", pr)
        ∈ (execute stubClient (proposal_pipeline "tender" "profile") []).calls
      ∧ ("AUDIT: price, support, SLA").data <:+: pr.data :=
  C1_audit_in_synthesis_prompt "tender" "profile" "AUDIT: price, support, SLA"
    stubClient rfl

/-- Claim C7: when some stage of a run fails, the orchestrator aborts at
that stage: exactly the stages up to and including the failing one were
invoked, no subsequent stage was called, no artifact is produced (the
outcome is an error, not a context), and the error carried is exactly the
failing stage client error. -/
theorem C7_abort_on_first_failure
    (client : String → String → Except StageError String)
    (stages : List PipelineStage) (ctx : List (String × String))
    (sid : String) (e : StageError)
    (h : (execute client stages ctx).outcome = Except.error (sid, e)) :
    ∃ pre s post, stages = pre ++ s :: post ∧ s.id = sid
      ∧ (execute client stages ctx).calls.map Prod.fst
          = pre.map PipelineStage.id ++ [sid]
      ∧ ∃ pr, (execute client stages ctx).calls.getLast? = some (sid, pr)
          ∧ client sid pr = Except.error e := by
  induction stages generalizing ctx with
  | nil => simp [execute] at h
  | cons s rest ih =>
    cases hc : client s.id (build_prompt s ctx) with
    | error e2 =>
      have hres : execute client (s :: rest) ctx
          = ⟨[(s.id, build_prompt s ctx)], Except.error (s.id, e2)⟩ := by
        simp [execute, hc]
      rw [hres] at h ⊢
      simp only [Except.error.injEq, Prod.mk.injEq] at h
      refine ⟨[], s, rest, rfl, h.1, by simp [h.1], build_prompt s ctx, ?_, ?_⟩
      · simp [h.1]
      · rw [← h.1, ← h.2]
        exact hc
    | ok out =>
      have hres : execute client (s :: rest) ctx
          = ⟨(s.id, build_prompt s ctx)
                :: (execute client rest (ctx ++ [(s.id, out)])).calls,
              (execute client rest (ctx ++ [(s.id, out)])).outcome⟩ := by
        simp [execute, hc]
      rw [hres] at h ⊢
      obtain ⟨pre', s', post', hsplit, hid, hcalls, pr, hlast, herr⟩ :=
        ih (ctx ++ [(s.id, out)]) h
      refine ⟨s :: pre', s', post', by rw [hsplit, List.cons_append], hid, ?_,
        pr, ?_, herr⟩
      · simp only [List.map_cons, hcalls, List.cons_append]
      · cases hcs : (execute client rest (ctx ++ [(s.id, out)])).calls with
        | nil => rw [hcs] at hlast; simp at hlast
        | cons c cs =>
          rw [hcs] at hlast
          rw [List.getLast?_cons_cons]
          exact hlast

/-- A stand-in client that fails every remote call with a timeout. -/
def failingClient : String → String → Except StageError String :=
  fun _ _ => Except.error StageError.timeoutError

/-- Witness for claim C7: with the failing client, the proposal pipeline
aborts at the audit stage and the synthesis stage is never invoked. -/
theorem C7_abort_on_first_failure_witness :
    ∃ pre s post, proposal_pipeline "tender" "profile" = pre ++ s :: post
      ∧ s.id = "audit"
      ∧ (execute failingClient (proposal_pipeline "tender" "profile") []).calls.map
            Prod.fst
          = pre.map PipelineStage.id ++ ["audit"]
      ∧ ∃ pr, (execute failingClient
              (proposal_pipeline "tender" "profile") []).calls.getLast?
            = some ("audit", pr)
          ∧ failingClient "audit" pr = Except.error StageError.timeoutError :=
  C7_abort_on_first_failure failingClient (proposal_pipeline "tender" "profile")
    [] "audit" StageError.timeoutError rfl

end BidFlow
